/-
Verification of the gopandas spreadsheet ingestion subsystem.

This file gives a shallow embedding, in Lean 4, of the Go functions of the
repository that the claims are about:

  * `inferType` (src/csv.go)                    — the cell value coercer;
  * `DataFrame.AddRow` (src/dataframe.go)       — the table container;
  * `getCellValue`, `readWorksheet`             — the OOXML sheet decoder
    (src/unnamed/part_001, the current revision of excel.go);
  * `parseXLS`, `parseOLEXLS`, `parseBIFFData`,
    `parseSST`, `parseRow`, `parseNumberRecord`,
    `parseLabelRecord`                          — the legacy (.xls) path
    (src/unnamed/part_001).

Byte buffers are modelled as `List Nat` (one element per byte, values < 256
in every real input).  Go strings are modelled as Lean `String`; the byte →
string conversions map each byte to the character of the same code point
(the Go originals interpret bytes as UTF-8, which agrees on the ASCII range
all sanitized payloads live in).  Go `float64` values are modelled by `F64`:
IEEE-754 bit patterns decode exactly into a rational (or Inf/NaN);
`strconv.ParseFloat` results are modelled by the exact decimal rational
(the Go runtime rounds that rational to the nearest binary64 — no property
proved below depends on that final rounding step).  Errors returned through
`error` values are modelled by the structured type `Err`, one constructor
per distinct `fmt.Errorf` site, carrying the data interpolated into the
message.
-/
import Mathlib

set_option maxRecDepth 100000
set_option exponentiation.threshold 2000

namespace GoPandas

/-- An exact rational `m * 10 ^ ex`, built with a single `mkRat` so that
kernel evaluation never needs the irreducible `Rat` field operations. -/
def qdec (m : Int) (ex : Int) : ℚ :=
  match ex with
  | .ofNat n => mkRat (m * Int.ofNat (10 ^ n)) 1
  | .negSucc n => mkRat m (10 ^ (n + 1))

/-- An exact rational `m * 2 ^ ex`, likewise built with a single `mkRat`. -/
def qbin (m : Int) (ex : Int) : ℚ :=
  match ex with
  | .ofNat n => mkRat (m * Int.ofNat (2 ^ n)) 1
  | .negSucc n => mkRat m (2 ^ (n + 1))

/-- A 16-bit little-endian word assembled from two bytes
(`binary.LittleEndian.Uint16`). -/
def le16 (b0 b1 : Nat) : Nat := b0 % 256 + 256 * (b1 % 256)

/-- A 32-bit little-endian word from the first four bytes of a buffer
(`binary.LittleEndian.Uint32`). -/
def le32 (bs : List Nat) : Nat :=
  bs.getD 0 0 % 256 + 256 * (bs.getD 1 0 % 256) + 65536 * (bs.getD 2 0 % 256)
    + 16777216 * (bs.getD 3 0 % 256)

/-- A 64-bit little-endian word from the first eight bytes of a buffer
(`binary.LittleEndian.Uint64`). -/
def le64 (bs : List Nat) : Nat :=
  (List.range 8).foldl (fun acc i => acc + bs.getD i 0 % 256 * 256 ^ i) 0

/-- Conversion of a byte list to a string, one character per byte
(Go `string(bytes)`; agrees with the original on ASCII payloads). -/
def bytesToString (bs : List Nat) : String :=
  String.mk (bs.map fun b => Char.ofNat (b % 256))

/-- A Go `float64`, either an exact finite rational value, an infinity, or
NaN. -/
inductive F64 where
  | fin (q : ℚ)
  | inf (neg : Bool)
  | nan
deriving DecidableEq, Repr

/-- A dynamically typed cell value as produced by `inferType`: the Go
`interface{}` holding `int`, `float64`, `bool`, `string`, or `nil`. -/
inductive Value where
  | int (n : Int)
  | float (f : F64)
  | bool (b : Bool)
  | str (s : String)
  | null
deriving DecidableEq, Repr

/-- Structured rendering of the `error` values returned by the decoders,
one constructor per `fmt.Errorf` site, carrying the interpolated data. -/
inductive Err where
  /-- parseXLS: "invalid XLS file: too small". -/
  | tooSmall
  /-- parseXLS: "invalid XLS file: unsupported signature 0x%04X". -/
  | unsupportedSignature (sig : Nat)
  /-- parseXLS: "no data found in XLS file". -/
  | noData
  /-- parseOLEXLS: "invalid OLE file: too small". -/
  | oleTooSmall
  /-- parseOLEXLS: "no valid Excel data found in OLE file". -/
  | noExcelData
  /-- readWorksheet: "worksheet is empty". -/
  | emptyWorksheet
  /-- AddRow: "row length %d does not match columns length %d". -/
  | rowLength (got expected : Nat)
deriving DecidableEq, Repr

/-- The DataFrame container (src/dataframe.go): column names, rows of typed
values, and the integer index. -/
structure DataFrame where
  columns : List String
  data : List (List Value)
  index : List Nat
deriving DecidableEq, Repr

/-- NewDataFrame (src/dataframe.go): empty data and index. -/
def NewDataFrame (columns : List String) : DataFrame :=
  ⟨columns, [], []⟩

/-- AddRow (src/dataframe.go lines 68-77): rejects a row whose length
differs from the column count, otherwise appends it and extends the index. -/
def AddRow (df : DataFrame) (row : List Value) : Except Err DataFrame :=
  if row.length ≠ df.columns.length then
    .error (.rowLength row.length df.columns.length)
  else
    .ok ⟨df.columns, df.data ++ [row], df.index ++ [df.data.length]⟩

/-- Caller-side use of AddRow in the decoders: the returned error is
ignored, so a mismatched row leaves the frame unchanged. -/
def addRowOrKeep (df : DataFrame) (row : List Value) : DataFrame :=
  match AddRow df row with
  | .ok d => d
  | .error _ => df

/-- Whitespace as trimmed by `strings.TrimSpace` (`unicode.IsSpace`);
the Latin-1 range of the Go predicate — space, tab, newline, vertical tab,
form feed, carriage return, NEL, NBSP.  (Higher Unicode space code points
are omitted; no decoded payload contains them.) -/
def goIsSpace (c : Char) : Bool :=
  c = ' ' || c = '\t' || c = '\n' || c.toNat = 11 || c.toNat = 12 ||
    c = '\r' || c.toNat = 133 || c.toNat = 160

/-- strings.TrimSpace: drop leading and trailing whitespace. -/
def goTrimSpace (s : String) : String :=
  String.mk (((s.data.dropWhile goIsSpace).reverse.dropWhile goIsSpace).reverse)

/-- Numeric value of a digit string. -/
def decDigits (l : List Char) : Nat :=
  l.foldl (fun a c => a * 10 + (c.toNat - 48)) 0

/-- strconv.Atoi: optional sign, one or more decimal digits, value within
the 64-bit `int` range; anything else is an error (`none`). -/
def goAtoi (s : String) : Option Int :=
  match s.data with
  | [] => none
  | c :: rest =>
    let (neg, digits) :=
      if c = '-' then (true, rest)
      else if c = '+' then (false, rest)
      else (false, c :: rest)
    if digits = [] then none
    else if digits.all Char.isDigit then
      let v : Int := (if neg then -1 else 1) * (decDigits digits : Int)
      if -(2 ^ 63) ≤ v ∧ v < 2 ^ 63 then some v else none
    else none

/-- strconv.ParseBool: the exact accepted spellings. -/
def goParseBool (s : String) : Option Bool :=
  if s = "1" || s = "t" || s = "T" || s = "true" || s = "TRUE" || s = "True" then
    some true
  else if s = "0" || s = "f" || s = "F" || s = "false" || s = "FALSE" || s = "False" then
    some false
  else none

/-- Lower-casing used by ParseFloat's special-value comparison. -/
def strLower (s : String) : String := String.mk (s.data.map Char.toLower)

/-- The decimal syntax accepted by strconv.ParseFloat — optional sign,
digits with an optional fraction part (at least one digit overall), and an
optional signed exponent — together with its exact rational value.  (Hex
float literals and digit-separating underscores, which the Go function also
accepts, are omitted; no claim exercises them.) -/
def goParseFloatDec (chars : List Char) : Option ℚ :=
  let (neg, r0) :=
    match chars with
    | '+' :: r => (false, r)
    | '-' :: r => (true, r)
    | r => (false, r)
  let ip := r0.takeWhile Char.isDigit
  let r1 := r0.drop ip.length
  let (fp, r2) :=
    match r1 with
    | '.' :: r => (r.takeWhile Char.isDigit, r.drop (r.takeWhile Char.isDigit).length)
    | _ => ([], r1)
  if ip = [] ∧ fp = [] then none
  else
    let m : Int :=
      if neg then -(Int.ofNat (decDigits (ip ++ fp))) else Int.ofNat (decDigits (ip ++ fp))
    match r2 with
    | [] => some (qdec m (-(fp.length : Int)))
    | 'e' :: r3 | 'E' :: r3 =>
      let (eneg, r4) :=
        match r3 with
        | '+' :: t => (false, t)
        | '-' :: t => (true, t)
        | t => (false, t)
      let ed := r4.takeWhile Char.isDigit
      if ed = [] ∨ r4.drop ed.length ≠ [] then none
      else
        let ex : Int :=
          if eneg then -(Int.ofNat (decDigits ed)) else Int.ofNat (decDigits ed)
        some (qdec m (ex - (fp.length : Int)))
    | _ => none

/-- strconv.ParseFloat (64-bit): special values Inf/NaN, otherwise the
decimal form; magnitudes that would round to infinity are an ErrRange
error (`none`), matching the Go function's `err != nil` behaviour that
`inferType` tests.  The overflow test compares `|q|` against the rounding
midpoint `2 ^ 1024 - 2 ^ 970` by cross multiplication, so it stays in
natural-number arithmetic. -/
def goParseFloat (s : String) : Option F64 :=
  let l := strLower s
  if l = "inf" || l = "+inf" || l = "infinity" || l = "+infinity" then some (.inf false)
  else if l = "-inf" || l = "-infinity" then some (.inf true)
  else if l = "nan" then some .nan
  else
    match goParseFloatDec s.data with
    | some q =>
      if (2 ^ 1024 - 2 ^ 970 : Nat) * q.den ≤ q.num.natAbs then none else some (.fin q)
    | none => none

/-- inferType (src/csv.go lines 124-144): trim, empty becomes nil, then
integer, float, bool conversions in order, else the (trimmed) string. -/
def inferType (value : String) : Value :=
  let v := goTrimSpace value
  if v = "" then .null
  else
    match goAtoi v with
    | some n => .int n
    | none =>
      match goParseFloat v with
      | some f => .float f
      | none =>
        match goParseBool v with
        | some b => .bool b
        | none => .str v

/-- Round `num / den` (with `den > 0`) to the nearest natural number,
ties to even — the rounding `strconv.FormatFloat` applies at a fixed
precision. -/
def round2TiesEven (num den : Nat) : Nat :=
  let f := num / den
  let r := num % den
  if 2 * r < den then f
  else if den < 2 * r then f + 1
  else if f % 2 = 0 then f else f + 1

/-- Left-pad the cents to two digits. -/
def pad2 (n : Nat) : String :=
  if n < 10 then "0" ++ toString n else toString n

/-- Sprintf("%.2f", v): the correctly rounded two-decimal rendering of a
float64. -/
def formatF2 : F64 → String
  | .nan => "NaN"
  | .inf neg => if neg then "-Inf" else "+Inf"
  | .fin q =>
    let n := round2TiesEven (q.num.natAbs * 100) q.den
    let sign := if q.num < 0 then "-" else ""
    sign ++ toString (n / 100) ++ "." ++ pad2 (n % 100)

/-- Decoding of eight little-endian bytes as an IEEE-754 binary64 value
(`binary.Read(..., binary.LittleEndian, &value)` into a float64): split
the bit pattern into sign, biased exponent and fraction, and take the
exact value.  A negative zero pattern decodes to the rational 0. -/
def decodeF64LE (bs : List Nat) : F64 :=
  let bits : Nat := le64 bs
  let sign : Nat := bits / 2 ^ 63 % 2
  let expo : Nat := bits / 2 ^ 52 % 2 ^ 11
  let frac : Nat := bits % 2 ^ 52
  if expo = 2047 then
    if frac = 0 then .inf (sign = 1) else .nan
  else
    let m : Int :=
      if sign = 1 then -(Int.ofNat (if expo = 0 then frac else 2 ^ 52 + frac))
      else Int.ofNat (if expo = 0 then frac else 2 ^ 52 + frac)
    .fin (if expo = 0 then qbin m (-1074) else qbin m ((expo : Int) - 1075))

/-- Positional column name `col_<i>`. -/
def colName (i : Nat) : String := "col_" ++ toString i

/-- The widest row: `maxCols` as computed by the decoders, a running
maximum of the row lengths starting from 0. -/
def maxLen (rows : List (List α)) : Nat :=
  rows.foldl (fun a r => max a r.length) 0

/-- One `<c>` element of an OOXML worksheet row: reference and type
attributes, `<v>` text, and the `<is><t>` inline text. -/
structure XCell where
  ref : String
  typ : String
  value : String
  inlineText : String
deriving DecidableEq, Repr

/-- getCellValue (src/unnamed/part_001 lines 202-221): type `s` resolves
the value as a shared-string index when it parses and is present in the
table (the Go map holds exactly the indices `0 .. n-1`); type `inlineStr`
takes the inline text; every other case returns the literal `<v>` text. -/
def getCellValue (sst : List String) (c : XCell) : String :=
  if c.typ = "s" then
    match goAtoi c.value with
    | some i =>
      if 0 ≤ i then
        match sst.get? i.toNat with
        | some s => s
        | none => c.value
      else c.value
    | none => c.value
  else if c.typ = "inlineStr" then c.inlineText
  else c.value

/-- readWorksheet (src/unnamed/part_001 lines 153-200), starting from the
already unmarshalled row/cell structure: empty sheet is an error; the
column count is the maximum cell count over all rows; the first row gives
the column names (padded with positional names); every later row becomes a
data row padded with nil to the column count. -/
def readWorksheet (sst : List String) (rows : List (List XCell)) : Except Err DataFrame :=
  if rows.length = 0 then .error .emptyWorksheet
  else
    let maxCols := maxLen rows
    let r0 := rows.headD []
    let columns :=
      r0.map (getCellValue sst) ++ ((List.range maxCols).drop r0.length).map colName
    .ok ((rows.drop 1).foldl
      (fun df r =>
        addRowOrKeep df ((List.range maxCols).map fun j =>
          match r.get? j with
          | some c => inferType (getCellValue sst c)
          | none => Value.null))
      (NewDataFrame columns))

/-- parseSST (src/unnamed/part_001 lines 343-360): a two-byte length
prefix, rejected (empty string) when it exceeds the remaining payload. -/
def parseSST (data : List Nat) : String :=
  if data.length < 2 then ""
  else
    let length := le16 (data.getD 0 0) (data.getD 1 0)
    if length > data.length - 2 then ""
    else bytesToString ((data.drop 2).take length)

/-- The byte filter of parseRow's default branch: keep printable ASCII. -/
def cleanRowBytes (bs : List Nat) : List Nat :=
  bs.filter fun b => b ≠ 0 && 32 ≤ b && b < 127

/-- The per-cell loop of parseRow: each iteration needs at least 8 bytes
(2-byte cell type and a fixed 6-byte cell payload); with fewer remaining
the cell keeps its zero value "" and the loop moves on without consuming
bytes, exactly as the Go loop does.  The 0x0204 numeric branch is guarded
by `len(cellData) >= 8` on the 6-byte array, so it never fires (were it
reached, the Go code would reinterpret the bytes as an integer via
`float64(binary.LittleEndian.Uint64(cellData))` — and in fact panic,
`Uint64` needing 8 bytes). -/
def rowCells (sst : List String) : Nat → List Nat → List String
  | 0, _ => []
  | n + 1, bytes =>
    if 8 ≤ bytes.length then
      let ct := le16 (bytes.getD 0 0) (bytes.getD 1 0)
      let cd := (bytes.drop 2).take 6
      let v :=
        if ct = 0x0204 then
          if 8 ≤ cd.length then formatF2 (.fin (mkRat (Int.ofNat (le64 cd)) 1)) else ""
        else if ct = 0x0205 then
          match sst.get? (le32 cd) with
          | some s => s
          | none => ""
        else bytesToString (cleanRowBytes cd)
      v :: rowCells sst n (bytes.drop 8)
    else "" :: rowCells sst n bytes

/-- parseRow (src/unnamed/part_001 lines 362-425): a 6-byte header of row
index, first column and last column; an inverted or over-wide (> 1000)
column span is rejected; then one cell slot per column in the span. -/
def parseRow (data : List Nat) (sst : List String) : Option (List String) :=
  if data.length < 6 then none
  else
    let firstCol := le16 (data.getD 2 0) (data.getD 3 0)
    let lastCol := le16 (data.getD 4 0) (data.getD 5 0)
    if lastCol < firstCol || 1000 < lastCol - firstCol then none
    else some (rowCells sst (lastCol - firstCol + 1) (data.drop 6))

/-- parseNumberRecord (src/unnamed/part_001 lines 552-579): 14-byte
minimum, a column sanity bound of 255, four skipped bytes, then an 8-byte
little-endian IEEE-754 double (so in fact 16 bytes are needed; on 14 or 15
the read fails and the record is rejected), formatted with two decimals
and placed at its column index in a fresh partial row. -/
def parseNumberRecord (data : List Nat) : Option (List String) :=
  if data.length < 14 then none
  else
    let col := le16 (data.getD 2 0) (data.getD 3 0)
    if 255 < col then none
    else if data.length < 16 then none
    else
      let value := decodeF64LE ((data.drop 8).take 8)
      some ((List.replicate (col + 1) "").set col (formatF2 value))

/-- The byte filter of parseLabelRecord: drop NUL and control bytes other
than tab, newline and carriage return. -/
def cleanLabelBytes (bs : List Nat) : List Nat :=
  bs.filter fun b => b ≠ 0 && (32 ≤ b || b = 9 || b = 10 || b = 13)

/-- parseLabelRecord (src/unnamed/part_001 lines 581-624): 8-byte minimum,
column bound 255, two skipped bytes, a 2-byte string length checked
against the remaining payload and a sanity bound of 1000, then the
sanitized text placed at its column index in a fresh partial row.  (The
shared-string parameter of the Go function is unused.) -/
def parseLabelRecord (data : List Nat) (_sst : List String) : Option (List String) :=
  if data.length < 8 then none
  else
    let col := le16 (data.getD 2 0) (data.getD 3 0)
    if 255 < col then none
    else
      let length := le16 (data.getD 6 0) (data.getD 7 0)
      if length > data.length - 8 || 1000 < length then none
      else
        some ((List.replicate (col + 1) "").set col
          (bytesToString (cleanLabelBytes ((data.drop 8).take length))))

/-- The state threaded through a record scan: the shared-string list and
the decoded rows, in order. -/
abbrev ScanState := List String × List (List String)

/-- The dispatch switch of parseXLS's record loop (src/unnamed/part_001
lines 287-296): SST records append their nonempty string, row records
append their nonempty decoded row. -/
def stepXLS (st : ScanState) (t : Nat) (payload : List Nat) : ScanState :=
  if t = 0x00FC then
    if parseSST payload ≠ "" then (st.1 ++ [parseSST payload], st.2) else st
  else if t = 0x0201 then
    match parseRow payload st.1 with
    | some row => if 0 < row.length then (st.1, st.2 ++ [row]) else st
    | none => st
  else st

/-- The record loop of parseXLS (src/unnamed/part_001 lines 269-297): runs
while more than 4 bytes remain; reads a 2-byte type and 2-byte size; a
positive size whose payload cannot be read in full ends the loop (clean
end of stream); otherwise the record is dispatched and the cursor moves
past the payload. -/
def scanXLS : List Nat → ScanState → ScanState
  | b0 :: b1 :: b2 :: b3 :: b4 :: rest, st =>
    let size := le16 b2 b3
    let tail := b4 :: rest
    if size > tail.length then st
    else scanXLS (tail.drop size) (stepXLS st (le16 b0 b1) (tail.take size))
  | _, st => st
termination_by data _ => data.length
decreasing_by simp [List.length_drop]; omega

/-- The dispatch switch of parseBIFFData's record loop (src/unnamed/part_001
lines 491-508): SST, BLANK/row, NUMBER and LABEL records. -/
def stepBIFF (st : ScanState) (t : Nat) (payload : List Nat) : ScanState :=
  if t = 0x00FC then
    if parseSST payload ≠ "" then (st.1 ++ [parseSST payload], st.2) else st
  else if t = 0x0201 then
    match parseRow payload st.1 with
    | some row => if 0 < row.length then (st.1, st.2 ++ [row]) else st
    | none => st
  else if t = 0x0203 then
    match parseNumberRecord payload with
    | some row => if 0 < row.length then (st.1, st.2 ++ [row]) else st
    | none => st
  else if t = 0x0204 then
    match parseLabelRecord payload st.1 with
    | some row => if 0 < row.length then (st.1, st.2 ++ [row]) else st
    | none => st
  else st

/-- The record loop of parseBIFFData (src/unnamed/part_001 lines 473-509):
like parseXLS's loop, but a declared size that exceeds the remaining bytes
does not stop the scan — the payload read is skipped (`record.Data` stays
nil), the record is dispatched with an empty payload, and scanning resumes
immediately after the 4-byte header. -/
def scanBIFF : List Nat → ScanState → ScanState
  | b0 :: b1 :: b2 :: b3 :: b4 :: rest, st =>
    let size := le16 b2 b3
    let tail := b4 :: rest
    if 0 < size ∧ size ≤ tail.length then
      scanBIFF (tail.drop size) (stepBIFF st (le16 b0 b1) (tail.take size))
    else scanBIFF tail (stepBIFF st (le16 b0 b1) [])
  | _, st => st
termination_by data _ => data.length
decreasing_by
  all_goals simp [List.length_drop]
  omega

/-- The shared tail of parseXLS and parseBIFFData that assembles the
DataFrame: the first decoded row (padded with positional names to the
widest row) becomes the column names, every later row is padded with nil
to the column count and appended. -/
def makeColumns (rows : List (List String)) : List String :=
  match rows with
  | [] => (List.range (maxLen rows)).map colName
  | r0 :: _ => r0 ++ ((List.range (maxLen rows)).drop r0.length).map colName

/-- Padding of one decoded row to the column count, coercing each present
cell and filling the rest with nil. -/
def padRow (maxCols : Nat) (r : List String) : List Value :=
  (List.range maxCols).map fun j =>
    match r.get? j with
    | some v => inferType v
    | none => Value.null

/-- DataFrame assembly from the decoded rows (src/unnamed/part_001 lines
303-340 and 511-549). -/
def buildDF (rows : List (List String)) : DataFrame :=
  (rows.drop 1).foldl
    (fun df r => addRowOrKeep df (padRow (maxLen rows) r))
    (NewDataFrame (makeColumns rows))

/-- The 16-bit word at a byte offset of the buffer
(`binary.LittleEndian.Uint16(data[off:])`). -/
def sigAt (data : List Nat) (off : Nat) : Nat :=
  le16 (data.getD off 0) (data.getD (off + 1) 0)

/-- A BIFF8 or BIFF5 stream signature. -/
def isBIFFSig (s : Nat) : Bool := s == 0x0809 || s == 0x0805

/-- parseBIFFData (src/unnamed/part_001 lines 466-550): scan the records
and assemble the frame; this path never fails — zero rows give an empty
frame. -/
def parseBIFFData (data : List Nat) : Except Err DataFrame :=
  .ok (buildDF (scanBIFF data ([], [])).2)

/-- The fixed-offset probe of parseOLEXLS (src/unnamed/part_001 lines
436-451): the first candidate among 512, 1024, 2048, 4096 that lies
strictly more than 4 bytes inside the buffer and carries a BIFF
signature. -/
def fixedProbe (data : List Nat) : Option Nat :=
  [512, 1024, 2048, 4096].find? fun off =>
    decide (off + 4 < data.length) && isBIFFSig (sigAt data off)

/-- The fallback 512-byte-stride scan of parseOLEXLS (src/unnamed/part_001
lines 453-461): offsets 0, 512, 1024, … while more than 4 bytes remain. -/
def strideScan (data : List Nat) : Option Nat :=
  ((List.range (data.length / 512 + 1)).find? fun k =>
    decide (k * 512 + 4 < data.length) && isBIFFSig (sigAt data (k * 512))).map
    (fun k => k * 512)

/-- parseOLEXLS (src/unnamed/part_001 lines 427-464): too-small buffers
fail; otherwise the fixed-offset probe, then the stride scan, hand the
first matching offset to parseBIFFData; no match anywhere fails with the
no-Excel-data error. -/
def parseOLEXLS (data : List Nat) : Except Err DataFrame :=
  if data.length < 512 then .error .oleTooSmall
  else
    match fixedProbe data with
    | some off => parseBIFFData (data.drop off)
    | none =>
      match strideScan data with
      | some off => parseBIFFData (data.drop off)
      | none => .error .noExcelData

/-- The raw-record-stream outcome of parseXLS: scan from offset 0 (the
loop rewinds over the signature, which doubles as the first record header)
and build the frame, failing when no rows were decoded. -/
def rawOutcome (data : List Nat) : Except Err DataFrame :=
  match scanXLS data ([], []) with
  | (_, rows) => if rows.length = 0 then .error .noData else .ok (buildDF rows)

/-- parseXLS (src/unnamed/part_001 lines 229-341): buffers under 8 bytes
fail; the first little-endian 16-bit word routes 0xD0CF/0xCFD0 to the OLE
locator and accepts 0x0809/0x0805 as a raw record stream; any other
signature fails with the unsupported-signature error carrying the value. -/
def parseXLS (data : List Nat) : Except Err DataFrame :=
  if data.length < 8 then .error .tooSmall
  else
    let signature := sigAt data 0
    if signature = 0xD0CF ∨ signature = 0xCFD0 then parseOLEXLS data
    else if signature = 0x0809 ∨ signature = 0x0805 then rawOutcome data
    else .error (.unsupportedSignature signature)

/-- A 4-byte record header with the type and size fields little-endian. -/
def mkHeader (t sz : Nat) : List Nat :=
  [t % 256, t / 256 % 256, sz % 256, sz / 256 % 256]

/-- A whole record: header plus payload. -/
def mkRec (t : Nat) (payload : List Nat) : List Nat :=
  mkHeader t payload.length ++ payload

/-- Serialization of a list of records into a byte stream. -/
def recStream (recs : List (Nat × List Nat)) : List Nat :=
  (recs.map fun r => mkRec r.1 r.2).flatten

instance : DecidableEq (Except Err DataFrame) := fun a b =>
  match a, b with
  | .ok x, .ok y => if h : x = y then isTrue (by rw [h]) else isFalse (by simp [h])
  | .error x, .error y => if h : x = y then isTrue (by rw [h]) else isFalse (by simp [h])
  | .ok _, .error _ => isFalse (by simp)
  | .error _, .ok _ => isFalse (by simp)

/-- Reassembling a 16-bit value from its two little-endian bytes gives the
value back. -/
theorem le16_encode (n : Nat) (h : n < 65536) : le16 (n % 256) (n / 256 % 256) = n := by
  unfold le16; omega

/-- A record dispatched with an empty payload leaves the parseXLS scan
state unchanged: the empty shared string is dropped and the empty row
payload is rejected. -/
theorem stepXLS_nil (st : ScanState) (t : Nat) : stepXLS st t [] = st := by
  simp [stepXLS, parseSST, parseRow]

/-- A record dispatched with an empty payload leaves the parseBIFFData
scan state unchanged, whatever its type. -/
theorem stepBIFF_nil (st : ScanState) (t : Nat) : stepBIFF st t [] = st := by
  simp [stepBIFF, parseSST, parseRow, parseNumberRecord, parseLabelRecord]

/-- The parseXLS record loop stops as soon as at most 4 bytes remain. -/
theorem scanXLS_small (data : List Nat) (st : ScanState) (h : data.length ≤ 4) :
    scanXLS data st = st := by
  rcases data with _ | ⟨a, _ | ⟨b, _ | ⟨c, _ | ⟨d, _ | ⟨e, t⟩⟩⟩⟩⟩ <;> simp_all [scanXLS]

/-- The parseBIFFData record loop stops as soon as at most 4 bytes
remain. -/
theorem scanBIFF_small (data : List Nat) (st : ScanState) (h : data.length ≤ 4) :
    scanBIFF data st = st := by
  rcases data with _ | ⟨a, _ | ⟨b, _ | ⟨c, _ | ⟨d, _ | ⟨e, t⟩⟩⟩⟩⟩ <;> simp_all [scanBIFF]

/-- One step of the parseXLS record loop: a well-formed record at the head
of the buffer is consumed whole and dispatched, provided bytes remain
after it (or its payload is nonempty). -/
theorem scanXLS_rec (t : Nat) (p rest : List Nat) (st : ScanState)
    (ht : t < 65536) (hp : p.length < 65536) (hne : p ≠ [] ∨ rest ≠ []) :
    scanXLS (mkRec t p ++ rest) st = scanXLS rest (stepXLS st t p) := by
  rcases hq : p ++ rest with _ | ⟨x, xs⟩
  · rcases List.append_eq_nil.mp hq with ⟨h1, h2⟩
    rcases hne with h | h
    · exact absurd h1 h
    · exact absurd h2 h
  · have hmk : mkRec t p ++ rest
        = t % 256 :: t / 256 % 256 :: p.length % 256 :: p.length / 256 % 256 :: (x :: xs) := by
      simp [mkRec, mkHeader, List.append_assoc, hq]
    rw [hmk, scanXLS.eq_1, ← hq]
    rw [le16_encode t ht, le16_encode p.length hp]
    have hlen : ¬ (p.length > (p ++ rest).length) := by simp [List.length_append]
    rw [if_neg hlen, List.take_left, List.drop_left]

/-- The parseXLS record loop ends cleanly on a record header whose
declared size exceeds the remaining bytes: the state so far is returned. -/
theorem scanXLS_stop (t sz : Nat) (cut : List Nat) (st : ScanState)
    (hsz : sz < 65536) (hcut : cut.length < sz) :
    scanXLS (mkHeader t sz ++ cut) st = st := by
  rcases cut with _ | ⟨x, xs⟩
  · apply scanXLS_small; simp [mkHeader]
  · have hmk : mkHeader t sz ++ (x :: xs)
        = t % 256 :: t / 256 % 256 :: sz % 256 :: sz / 256 % 256 :: (x :: xs) := by
      simp [mkHeader]
    rw [hmk, scanXLS.eq_1, le16_encode sz hsz, if_pos hcut]

/-- One step of the parseBIFFData record loop: a well-formed record at the
head of the buffer is consumed whole and dispatched. -/
theorem scanBIFF_rec (t : Nat) (p rest : List Nat) (st : ScanState)
    (ht : t < 65536) (hp : p.length < 65536) :
    scanBIFF (mkRec t p ++ rest) st = scanBIFF rest (stepBIFF st t p) := by
  rcases hq : p ++ rest with _ | ⟨x, xs⟩
  · rcases List.append_eq_nil.mp hq with ⟨h1, h2⟩
    subst h1; subst h2
    rw [stepBIFF_nil, scanBIFF_small [] st (by simp)]
    apply scanBIFF_small
    simp [mkRec, mkHeader]
  · have hmk : mkRec t p ++ rest
        = t % 256 :: t / 256 % 256 :: p.length % 256 :: p.length / 256 % 256 :: (x :: xs) := by
      simp [mkRec, mkHeader, List.append_assoc, hq]
    rw [hmk, scanBIFF.eq_1, ← hq]
    rw [le16_encode t ht, le16_encode p.length hp]
    rcases p with _ | ⟨y, ys⟩
    · have hcond : ¬ (0 < ([] : List Nat).length
          ∧ ([] : List Nat).length ≤ (([] : List Nat) ++ rest).length) := by
        simp
      rw [if_neg hcond]
      simp
    · have hcond : 0 < (y :: ys).length ∧ (y :: ys).length ≤ ((y :: ys) ++ rest).length := by
        simp [List.length_append]
      rw [if_pos hcond, List.take_left, List.drop_left]

/-- A record header whose declared size exceeds the remaining bytes does
not stop the parseBIFFData loop: the record contributes nothing (it is
dispatched with a nil payload) and scanning resumes right after the
header. -/
theorem scanBIFF_oversize (t sz : Nat) (cut : List Nat) (st : ScanState)
    (hsz : sz < 65536) (hcut : cut.length < sz) :
    scanBIFF (mkHeader t sz ++ cut) st = scanBIFF cut st := by
  rcases cut with _ | ⟨x, xs⟩
  · rw [scanBIFF_small _ _ (by simp [mkHeader]), scanBIFF_small _ _ (by simp)]
  · have hmk : mkHeader t sz ++ (x :: xs)
        = t % 256 :: t / 256 % 256 :: sz % 256 :: sz / 256 % 256 :: (x :: xs) := by
      simp [mkHeader]
    have hcond : ¬ (0 < le16 (sz % 256) (sz / 256 % 256)
        ∧ le16 (sz % 256) (sz / 256 % 256) ≤ (x :: xs).length) := by
      rw [le16_encode sz hsz]
      simp at hcut ⊢
      omega
    rw [hmk, scanBIFF.eq_1, if_neg hcond, stepBIFF_nil]

/-- Folding AddRow over rows of the right width preserves the columns and
appends exactly the mapped rows, since AddRow never rejects them. -/
theorem foldl_addRowOrKeep {α : Type} (f : α → List Value) :
    ∀ (l : List α) (df : DataFrame), (∀ a ∈ l, (f a).length = df.columns.length) →
      (l.foldl (fun d a => addRowOrKeep d (f a)) df).columns = df.columns ∧
      (l.foldl (fun d a => addRowOrKeep d (f a)) df).data = df.data ++ l.map f
  | [], df, _ => by simp
  | a :: tl, df, hf => by
    have ha : (f a).length = df.columns.length := hf a (by simp)
    have hstep : addRowOrKeep df (f a)
        = ⟨df.columns, df.data ++ [f a], df.index ++ [df.data.length]⟩ := by
      simp [addRowOrKeep, AddRow, ha]
    have ih := foldl_addRowOrKeep f tl ⟨df.columns, df.data ++ [f a], df.index ++ [df.data.length]⟩
      (fun b hb => hf b (List.mem_cons_of_mem a hb))
    simp only [List.foldl_cons, hstep, List.map_cons]
    refine ⟨ih.1, ?_⟩
    rw [ih.2]
    simp

/-- The running maximum of row lengths dominates its starting value. -/
theorem le_foldl_max {α : Type} : ∀ (rows : List (List α)) (a : Nat),
    a ≤ rows.foldl (fun x r => max x r.length) a
  | [], a => le_refl a
  | r :: tl, a => le_trans (Nat.le_max_left a r.length) (le_foldl_max tl (max a r.length))

/-- The running maximum of row lengths dominates every member's length. -/
theorem mem_le_foldl_max {α : Type} : ∀ (rows : List (List α)) (a : Nat) (r : List α),
    r ∈ rows → r.length ≤ rows.foldl (fun x s => max x s.length) a
  | s :: tl, a, r, hr => by
    rcases List.mem_cons.mp hr with h | h
    · subst h
      exact le_trans (Nat.le_max_right a r.length) (le_foldl_max tl (max a r.length))
    · exact mem_le_foldl_max tl (max a s.length) r h

/-- Every row of the sheet is at most maxCols wide. -/
theorem mem_le_maxLen {α : Type} (rows : List (List α)) (r : List α) (hr : r ∈ rows) :
    r.length ≤ maxLen rows :=
  mem_le_foldl_max rows 0 r hr

/-- The parseXLS record loop over a stream of well-formed records followed
by a record truncated mid-payload folds the dispatch over exactly the
well-formed records. -/
theorem scanXLS_recStream :
    ∀ (recs : List (Nat × List Nat)) (t sz : Nat) (cut : List Nat) (st : ScanState),
    (∀ r ∈ recs, r.1 < 65536 ∧ r.2.length < 65536) → sz < 65536 → cut.length < sz →
    scanXLS (recStream recs ++ (mkHeader t sz ++ cut)) st
      = recs.foldl (fun s r => stepXLS s r.1 r.2) st
  | [], t, sz, cut, st, _, hsz, hcut => by
    simp only [recStream, List.map_nil, List.flatten_nil, List.nil_append, List.foldl_nil]
    exact scanXLS_stop t sz cut st hsz hcut
  | r :: tl, t, sz, cut, st, hr, hsz, hcut => by
    have h1 := hr r (by simp)
    have hne : recStream tl ++ (mkHeader t sz ++ cut) ≠ [] := by
      intro hh
      have h3 := (List.append_eq_nil.mp hh).2
      have h4 := (List.append_eq_nil.mp h3).1
      simp [mkHeader] at h4
    have hsplit : recStream (r :: tl) ++ (mkHeader t sz ++ cut)
        = mkRec r.1 r.2 ++ (recStream tl ++ (mkHeader t sz ++ cut)) := by
      simp [recStream, List.append_assoc]
    rw [hsplit, scanXLS_rec r.1 r.2 _ st h1.1 h1.2 (Or.inr hne), List.foldl_cons]
    exact scanXLS_recStream tl t sz cut (stepXLS st r.1 r.2)
      (fun x hx => hr x (List.mem_cons_of_mem r hx)) hsz hcut

/-- The column-name list always has exactly maxCols entries. -/
theorem makeColumns_length (rows : List (List String)) :
    (makeColumns rows).length = maxLen rows := by
  match rows with
  | [] => simp [makeColumns, maxLen]
  | r0 :: tl =>
    have hle : r0.length ≤ maxLen (r0 :: tl) := mem_le_maxLen _ r0 (by simp)
    simp only [makeColumns, List.length_append, List.length_map, List.length_drop,
      List.length_range]
    omega

/-- buildDF produces the padded column list and one padded data row per
decoded row after the first. -/
theorem buildDF_spec (rows : List (List String)) :
    (buildDF rows).columns = makeColumns rows
  ∧ (buildDF rows).data = (rows.drop 1).map (padRow (maxLen rows)) := by
  have h := foldl_addRowOrKeep (padRow (maxLen rows)) (rows.drop 1)
    (NewDataFrame (makeColumns rows))
    (fun a _ => by simp [padRow, NewDataFrame, makeColumns_length])
  exact ⟨h.1, by unfold buildDF; rw [h.2]; simp [NewDataFrame]⟩

/-- A single decoded row becomes the column names of an otherwise empty
frame. -/
theorem buildDF_single (r : List String) : buildDF [r] = ⟨r, [], []⟩ := by
  have hmax : maxLen [r] = r.length := by simp [maxLen]
  have hm : makeColumns [r] = r := by simp [makeColumns, hmax]
  simp [buildDF, hm, NewDataFrame]

/-- C1: whenever readWorksheet succeeds on a sheet, the resulting
DataFrame has exactly one data row per sheet row after the header, and
every data row has length equal to the maximum cell count over all sheet
rows, header included. -/
theorem c1_readWorksheet_shape (sst : List String) (rows : List (List XCell)) (df : DataFrame)
    (h : readWorksheet sst rows = .ok df) :
    df.data.length = rows.length - 1 ∧ ∀ r ∈ df.data, r.length = maxLen rows := by
  unfold readWorksheet at h
  by_cases h0 : rows.length = 0
  · rw [if_pos h0] at h; exact absurd h (by simp)
  · rw [if_neg h0] at h
    simp only [Except.ok.injEq] at h
    have hne : rows ≠ [] := fun hh => h0 (by simp [hh])
    have hhead : rows.headD [] ∈ rows := by
      rcases rows with _ | ⟨r0, tl⟩
      · exact absurd rfl hne
      · simp
    have hle : (rows.headD []).length ≤ maxLen rows := mem_le_maxLen rows _ hhead
    set W := maxLen rows with hW
    set cols := (rows.headD []).map (getCellValue sst)
      ++ ((List.range W).drop (rows.headD []).length).map colName with hcols
    have hcl : cols.length = W := by
      simp only [hcols, List.length_append, List.length_map, List.length_drop,
        List.length_range]
      omega
    set f : List XCell → List Value := fun r =>
      (List.range W).map fun j =>
        match r.get? j with
        | some c => inferType (getCellValue sst c)
        | none => Value.null with hfdef
    have hflen : ∀ r, (f r).length = W := by
      intro r; simp [hfdef]
    have hfold := foldl_addRowOrKeep f (rows.drop 1) (NewDataFrame cols)
      (fun a _ => by rw [hflen]; simp [NewDataFrame, hcl])
    rw [← h]
    constructor
    · rw [hfold.2]
      simp [NewDataFrame]
    · intro r hrmem
      rw [hfold.2] at hrmem
      have hm : r ∈ List.map f (rows.drop 1) := by
        simpa [NewDataFrame] using hrmem
      obtain ⟨a, _, hfa⟩ := List.mem_map.mp hm
      rw [← hfa, hflen]

/-- C1 witness: a sheet with a one-cell header and one two-cell data row
decodes to a frame with one data row of width two. -/
theorem c1_readWorksheet_shape_witness :
    (⟨["name", "col_1"], [[Value.int 42, Value.str "x"]], [0]⟩ : DataFrame).data.length
      = ([[⟨"", "", "name", ""⟩], [⟨"", "", "42", ""⟩, ⟨"", "", "x", ""⟩]] :
          List (List XCell)).length - 1
  ∧ ∀ r ∈ (⟨["name", "col_1"], [[Value.int 42, Value.str "x"]], [0]⟩ : DataFrame).data,
      r.length = maxLen ([[⟨"", "", "name", ""⟩], [⟨"", "", "42", ""⟩, ⟨"", "", "x", ""⟩]] :
        List (List XCell)) :=
  c1_readWorksheet_shape [] [[⟨"", "", "name", ""⟩], [⟨"", "", "42", ""⟩, ⟨"", "", "x", ""⟩]]
    ⟨["name", "col_1"], [[Value.int 42, Value.str "x"]], [0]⟩ (by decide)

/-- C2: the cell value coercer is total and deterministic (it is a Lean
function), tries integer, then float, then boolean conversions on the
trimmed text in that fixed order with empty text becoming Null, and maps
the spec's five examples as stated — "42" to Int64 42, "3.14" to
Float64 3.14 (the exact decimal rational 157/50 in this model), "true" to
Bool true, "" to Null, "hello" to Text "hello". -/
theorem c2_inferType_total_order :
    inferType "42" = .int 42
  ∧ inferType "3.14" = .float (.fin (mkRat 157 50))
  ∧ inferType "true" = .bool true
  ∧ inferType "" = .null
  ∧ inferType "hello" = .str "hello"
  ∧ (∀ s : String, goTrimSpace s = "" → inferType s = .null)
  ∧ (∀ (s : String) (n : Int), goTrimSpace s ≠ "" → goAtoi (goTrimSpace s) = some n →
      inferType s = .int n)
  ∧ (∀ (s : String) (f : F64), goTrimSpace s ≠ "" → goAtoi (goTrimSpace s) = none →
      goParseFloat (goTrimSpace s) = some f → inferType s = .float f)
  ∧ (∀ (s : String) (b : Bool), goTrimSpace s ≠ "" → goAtoi (goTrimSpace s) = none →
      goParseFloat (goTrimSpace s) = none → goParseBool (goTrimSpace s) = some b →
      inferType s = .bool b)
  ∧ (∀ s : String, goTrimSpace s ≠ "" → goAtoi (goTrimSpace s) = none →
      goParseFloat (goTrimSpace s) = none → goParseBool (goTrimSpace s) = none →
      inferType s = .str (goTrimSpace s)) := by
  refine ⟨by decide, by decide, by decide, by decide, by decide, ?_, ?_, ?_, ?_, ?_⟩
  · intro s h1
    simp only [inferType, h1]
    rfl
  · intro s n h1 h2
    simp only [inferType, if_neg h1, h2]
  · intro s f h1 h2 h3
    simp only [inferType, if_neg h1, h2, h3]
  · intro s b h1 h2 h3 h4
    simp only [inferType, if_neg h1, h2, h3, h4]
  · intro s h1 h2 h3 h4
    simp only [inferType, if_neg h1, h2, h3, h4]

/-- C2 witness: the ordering clauses applied at concrete inputs, one per
priority level. -/
theorem c2_inferType_total_order_witness :
    inferType " 7 " = .int 7 ∧ inferType " 2.5" = .float (.fin (mkRat 5 2))
  ∧ inferType "  " = .null ∧ inferType " t" = .bool true ∧ inferType " x" = .str "x" := by
  refine ⟨?_, ?_, ?_, ?_, ?_⟩
  · exact c2_inferType_total_order.2.2.2.2.2.2.1 " 7 " 7 (by decide) (by decide)
  · exact c2_inferType_total_order.2.2.2.2.2.2.2.1 " 2.5" (.fin (mkRat 5 2)) (by decide)
      (by decide) (by decide)
  · exact c2_inferType_total_order.2.2.2.2.2.1 "  " (by decide)
  · exact c2_inferType_total_order.2.2.2.2.2.2.2.2.1 " t" true (by decide) (by decide)
      (by decide) (by decide)
  · exact c2_inferType_total_order.2.2.2.2.2.2.2.2.2 " x" (by decide) (by decide) (by decide)
      (by decide)

/-- C3: for a cell of declared type "s", an index that parses and lies
within the shared-string table resolves to the table entry at that index;
an out-of-range index (including a negative one) or a non-numeric value
falls back to the raw literal text, and getCellValue is a total function,
so the decode never aborts on such a cell. -/
theorem c3_sharedString_resolution (sst : List String) (c : XCell) (hs : c.typ = "s") :
    (∀ i : Int, goAtoi c.value = some i → 0 ≤ i → i.toNat < sst.length →
      getCellValue sst c = sst.getD i.toNat "")
  ∧ (∀ i : Int, goAtoi c.value = some i → i < 0 ∨ sst.length ≤ i.toNat →
      getCellValue sst c = c.value)
  ∧ (goAtoi c.value = none → getCellValue sst c = c.value) := by
  refine ⟨?_, ?_, ?_⟩
  · intro i h1 h2 h3
    simp only [getCellValue, if_pos hs, h1, if_pos h2]
    rw [List.getD_eq_getElem?_getD]
    rw [List.getElem?_eq_getElem h3]
    simp [List.get?_eq_getElem?, List.getElem?_eq_getElem h3]
  · intro i h1 h2
    simp only [getCellValue, if_pos hs, h1]
    by_cases hpi : 0 ≤ i
    · have hlen : sst.length ≤ i.toNat := by
        rcases h2 with h2 | h2
        · omega
        · exact h2
      rw [if_pos hpi, List.get?_eq_getElem?, List.getElem?_eq_none hlen]
    · rw [if_neg hpi]
  · intro h1
    simp only [getCellValue, if_pos hs, h1]

/-- C3 witness: in-range index 1 resolves to the entry, out-of-range index
5 and the non-numeric value fall back to the literal text. -/
theorem c3_sharedString_resolution_witness :
    getCellValue ["a", "b"] ⟨"", "s", "1", ""⟩ = "b"
  ∧ getCellValue ["a", "b"] ⟨"", "s", "5", ""⟩ = "5"
  ∧ getCellValue ["a", "b"] ⟨"", "s", "x7", ""⟩ = "x7" := by
  refine ⟨?_, ?_, ?_⟩
  · have h := (c3_sharedString_resolution ["a", "b"] ⟨"", "s", "1", ""⟩ rfl).1 1 (by decide)
      (by decide) (by decide)
    simpa using h
  · exact (c3_sharedString_resolution ["a", "b"] ⟨"", "s", "5", ""⟩ rfl).2.1 5 (by decide)
      (by decide)
  · exact (c3_sharedString_resolution ["a", "b"] ⟨"", "s", "x7", ""⟩ rfl).2.2 (by decide)

/-- C4 counterexample: a 7-byte buffer whose first little-endian word is
the raw-stream signature 0x0809 is rejected with the too-small error
before any signature classification, instead of being parsed as a raw
record stream (which would give the no-data error here). -/
theorem c4_small_buffer_counterexample :
    sigAt [9, 8, 0, 0, 0, 0, 0] 0 = 0x0809
  ∧ parseXLS [9, 8, 0, 0, 0, 0, 0] = .error .tooSmall
  ∧ rawOutcome [9, 8, 0, 0, 0, 0, 0] = .error .noData
  ∧ parseXLS [9, 8, 0, 0, 0, 0, 0] ≠ rawOutcome [9, 8, 0, 0, 0, 0, 0] := by
  have hscan : scanXLS [9, 8, 0, 0, 0, 0, 0] ([], []) = ([], []) := by
    rw [scanXLS.eq_1]
    norm_num [le16]
    rw [stepXLS_nil]
    exact scanXLS_small _ _ (by simp)
  have h1 : parseXLS [9, 8, 0, 0, 0, 0, 0] = .error .tooSmall := by simp [parseXLS]
  have h2 : rawOutcome [9, 8, 0, 0, 0, 0, 0] = .error .noData := by
    simp only [rawOutcome, hscan]
    rfl
  exact ⟨by decide, h1, h2, by rw [h1, h2]; simp⟩

/-- C4 (amended): for every byte buffer of at least 8 bytes handed to the
.xls path, the first little-endian 16-bit word routes the decode — 0x0809
or 0x0805 to the raw record-stream parse, 0xD0CF or 0xCFD0 to the OLE2
locator, and any other value to an UnsupportedFormat error carrying the
offending signature. -/
theorem c4_signature_dispatch (data : List Nat) (h8 : 8 ≤ data.length) :
    ((sigAt data 0 = 0x0809 ∨ sigAt data 0 = 0x0805) → parseXLS data = rawOutcome data)
  ∧ ((sigAt data 0 = 0xD0CF ∨ sigAt data 0 = 0xCFD0) → parseXLS data = parseOLEXLS data)
  ∧ (sigAt data 0 ≠ 0x0809 → sigAt data 0 ≠ 0x0805 → sigAt data 0 ≠ 0xD0CF →
      sigAt data 0 ≠ 0xCFD0 →
      parseXLS data = .error (.unsupportedSignature (sigAt data 0))) := by
  have hns : ¬ (data.length < 8) := by omega
  refine ⟨?_, ?_, ?_⟩
  · intro hsig
    have hnd : ¬ (sigAt data 0 = 0xD0CF ∨ sigAt data 0 = 0xCFD0) := by
      rcases hsig with h | h <;> simp [h]
    simp only [parseXLS, if_neg hns, if_neg hnd, if_pos hsig]
  · intro hsig
    simp only [parseXLS, if_neg hns, if_pos hsig]
  · intro h1 h2 h3 h4
    simp only [parseXLS, if_neg hns]
    rw [if_neg (by tauto), if_neg (by tauto)]

/-- C4 witness: an 8-byte buffer with the BIFF8 signature is routed to the
raw record-stream parse. -/
theorem c4_signature_dispatch_witness :
    parseXLS [9, 8, 0, 0, 0, 0, 0, 0] = rawOutcome [9, 8, 0, 0, 0, 0, 0, 0] :=
  (c4_signature_dispatch [9, 8, 0, 0, 0, 0, 0, 0] (by decide)).1 (Or.inl (by decide))

/-- C5: the parseXLS record reader, run on any stream of well-formed
records followed by a record truncated mid-payload (its declared size
exceeding the remaining bytes), returns exactly the dispatch fold over
the well-formed records — the rows decoded before the truncation point —
as a value, never an error or a crash.  The extra conjuncts show the end
conditions are clean: a record with an empty payload contributes nothing,
and a buffer of exactly 4 remaining bytes ends the scan with the state
unchanged, so stopping at "4 or fewer" is observationally the claim's
"fewer than 4". -/
theorem c5_truncated_stream (recs : List (Nat × List Nat)) (t sz : Nat) (cut : List Nat)
    (st : ScanState) (hr : ∀ r ∈ recs, r.1 < 65536 ∧ r.2.length < 65536) (hsz : sz < 65536)
    (hcut : cut.length < sz) :
    scanXLS (recStream recs ++ (mkHeader t sz ++ cut)) st
      = recs.foldl (fun s r => stepXLS s r.1 r.2) st
  ∧ (∀ (st2 : ScanState) (t2 : Nat), stepXLS st2 t2 [] = st2)
  ∧ (∀ (b0 b1 b2 b3 : Nat) (st3 : ScanState), scanXLS [b0, b1, b2, b3] st3 = st3) :=
  ⟨scanXLS_recStream recs t sz cut st hr hsz hcut,
   fun st2 t2 => stepXLS_nil st2 t2,
   fun _ _ _ _ st3 => scanXLS_small _ st3 (by simp)⟩

/-- C5 witness: a stream holding one well-formed row record and then a
header announcing 5 payload bytes with only 3 present decodes to exactly
the one row. -/
theorem c5_truncated_stream_witness :
    scanXLS (recStream [(0x0201, [0, 0, 0, 0, 0, 0, 255, 255, 65, 66, 67, 0, 0, 0])]
        ++ (mkHeader 0x0203 5 ++ [1, 2, 3])) ([], [])
      = ([], [["ABC"]]) := by
  have h := (c5_truncated_stream [(0x0201, [0, 0, 0, 0, 0, 0, 255, 255, 65, 66, 67, 0, 0, 0])]
    0x0203 5 [1, 2, 3] ([], []) (by decide) (by decide) (by decide)).1
  rw [h]
  decide

/-- C6: in the parseBIFFData reader, a record whose declared length
exceeds the remaining buffer contributes nothing and scanning continues
(first conjunct; the dispatch of its nil payload is a no-op by the second
conjunct); a whole record whose payload its parser rejects is skipped
entirely and parsing continues with the following record (third
conjunct); and the defensive per-record bounds all reject: a label record
whose string length field exceeds 1000, a row record spanning more than
1000 columns, and a number record whose column exceeds 255 each decode to
nothing (remaining conjuncts).  No read ever leaves the buffer: every
access in the embedding is bounds-checked exactly where the Go code
checks, and the scan is a total function. -/
theorem c6_inconsistent_record_skip :
    (∀ (t sz : Nat) (cut : List Nat) (st : ScanState), sz < 65536 → cut.length < sz →
      scanBIFF (mkHeader t sz ++ cut) st = scanBIFF cut st)
  ∧ (∀ (st : ScanState) (t : Nat), stepBIFF st t [] = st)
  ∧ (∀ (t : Nat) (p rest : List Nat) (st : ScanState), t < 65536 → p.length < 65536 →
      stepBIFF st t p = st → scanBIFF (mkRec t p ++ rest) st = scanBIFF rest st)
  ∧ (∀ (data : List Nat) (sst : List String),
      1000 < le16 (data.getD 6 0) (data.getD 7 0) → parseLabelRecord data sst = none)
  ∧ (∀ (data : List Nat) (sst : List String),
      1000 < le16 (data.getD 4 0) (data.getD 5 0) - le16 (data.getD 2 0) (data.getD 3 0) →
      parseRow data sst = none)
  ∧ (∀ data : List Nat, 255 < le16 (data.getD 2 0) (data.getD 3 0) →
      parseNumberRecord data = none) := by
  refine ⟨scanBIFF_oversize, stepBIFF_nil, ?_, ?_, ?_, ?_⟩
  · intro t p rest st ht hp hstep
    rw [scanBIFF_rec t p rest st ht hp, hstep]
  · intro data sst hlen
    unfold parseLabelRecord
    by_cases h8 : data.length < 8
    · rw [if_pos h8]
    · rw [if_neg h8]
      by_cases hcol : 255 < le16 (data.getD 2 0) (data.getD 3 0)
      · rw [if_pos hcol]
      · rw [if_neg hcol, if_pos (by
          simp only [Bool.or_eq_true, decide_eq_true_eq]
          exact Or.inr hlen)]
  · intro data sst hspan
    unfold parseRow
    by_cases h6 : data.length < 6
    · rw [if_pos h6]
    · rw [if_neg h6, if_pos (by
        simp only [Bool.or_eq_true, decide_eq_true_eq]
        exact Or.inr hspan)]
  · intro data hcol
    unfold parseNumberRecord
    by_cases h14 : data.length < 14
    · rw [if_pos h14]
    · rw [if_neg h14, if_pos hcol]

/-- C6 witness: a header declaring 10 payload bytes over a 2-byte
remainder is skipped and the scan of the remainder finishes cleanly; a
label record with length field 1001 decodes to nothing. -/
theorem c6_inconsistent_record_skip_witness :
    scanBIFF (mkHeader 0x0203 10 ++ [1, 2]) ([], []) = ([], [])
  ∧ parseLabelRecord [0, 0, 0, 0, 0, 0, 233, 3, 1, 2, 3] [] = none := by
  constructor
  · rw [c6_inconsistent_record_skip.1 0x0203 10 [1, 2] ([], []) (by decide) (by decide)]
    exact scanBIFF_small _ _ (by simp)
  · exact c6_inconsistent_record_skip.2.2.2.1 [0, 0, 0, 0, 0, 0, 233, 3, 1, 2, 3] []
      (by decide)

/-- C7: the OLE2 locator probes exactly the fixed offsets 512, 1024, 2048,
4096 and hands the first BIFF signature match to the record reader (first
conjunct); a buffer whose only fixed-candidate signature sits at offset
1024 is found by the fixed probe itself (second conjunct); a buffer with
no signature anywhere fails with the NotFound-style no-Excel-data error
(third conjunct); and the stride scan is consulted only when the fixed
probe found nothing (fourth conjunct). -/
theorem c7_ole_locator (data : List Nat) :
    (∀ off, fixedProbe data = some off →
      (off = 512 ∨ off = 1024 ∨ off = 2048 ∨ off = 4096) ∧ isBIFFSig (sigAt data off) = true ∧
      parseOLEXLS data = parseBIFFData (data.drop off))
  ∧ (1028 < data.length → isBIFFSig (sigAt data 1024) = true →
      isBIFFSig (sigAt data 512) = false →
      fixedProbe data = some 1024 ∧ parseOLEXLS data = parseBIFFData (data.drop 1024))
  ∧ (512 ≤ data.length → (∀ off, off + 4 < data.length → isBIFFSig (sigAt data off) = false) →
      parseOLEXLS data = .error .noExcelData)
  ∧ (512 ≤ data.length → fixedProbe data = none → ∀ off, strideScan data = some off →
      parseOLEXLS data = parseBIFFData (data.drop off)) := by
  refine ⟨?_, ?_, ?_, ?_⟩
  · intro off hfp
    have hmem := List.mem_of_find?_eq_some hfp
    have hp := List.find?_some hfp
    rw [Bool.and_eq_true, decide_eq_true_iff] at hp
    have hoff : off = 512 ∨ off = 1024 ∨ off = 2048 ∨ off = 4096 := by simpa using hmem
    have h512 : ¬ (data.length < 512) := by rcases hoff with h | h | h | h <;> omega
    refine ⟨hoff, hp.2, ?_⟩
    simp only [parseOLEXLS, if_neg h512, hfp]
  · intro hlen h1024 h512
    have hfp : fixedProbe data = some 1024 := by
      unfold fixedProbe
      rw [List.find?_cons_of_neg _ (by simp [h512])]
      rw [List.find?_cons_of_pos _ (by simp [h1024]; omega)]
    refine ⟨hfp, ?_⟩
    simp only [parseOLEXLS, if_neg (by omega : ¬ (data.length < 512)), hfp]
  · intro hlen hall
    have hfp : fixedProbe data = none := by
      unfold fixedProbe
      rw [List.find?_eq_none]
      intro x hx
      by_cases hlt : x + 4 < data.length
      · simp [hlt, hall x hlt]
      · simp [hlt]
    have hss : strideScan data = none := by
      unfold strideScan
      rw [Option.map_eq_none', List.find?_eq_none]
      intro k hk
      by_cases hlt : k * 512 + 4 < data.length
      · simp [hlt, hall (k * 512) hlt]
      · simp [hlt]
    simp only [parseOLEXLS, if_neg (by omega : ¬ (data.length < 512)), hfp, hss]
  · intro hlen hfp off hss
    simp only [parseOLEXLS, if_neg (by omega : ¬ (data.length < 512)), hfp, hss]

/-- C7 witness: a 1029-byte buffer whose only BIFF signature sits exactly
at offset 1024 is located by the fixed-offset probe and routed to the
record reader from that offset. -/
theorem c7_ole_locator_witness :
    fixedProbe (List.replicate 1024 0 ++ [9, 8, 0, 0, 0]) = some 1024
  ∧ parseOLEXLS (List.replicate 1024 0 ++ [9, 8, 0, 0, 0])
      = parseBIFFData ((List.replicate 1024 0 ++ [9, 8, 0, 0, 0]).drop 1024) :=
  (c7_ole_locator (List.replicate 1024 0 ++ [9, 8, 0, 0, 0])).2.1 (by decide) (by decide)
    (by decide)

/-- C8 counterexample: two NUMBER records addressed to the same
spreadsheet row (row index 0, columns 0 and 1) produce two separate rows
in the reader's output sequence, not one merged row. -/
theorem c8_merge_counterexample :
    (scanBIFF (mkRec 0x0203 [0, 0, 0, 0, 0, 0, 0, 0, 0, 0, 0, 0, 0, 0, 248, 63]
        ++ mkRec 0x0203 [0, 0, 1, 0, 0, 0, 0, 0, 0, 0, 0, 0, 0, 0, 248, 63]) ([], [])).2
      = [["1.50"], ["", "1.50"]]
  ∧ ¬ ((scanBIFF (mkRec 0x0203 [0, 0, 0, 0, 0, 0, 0, 0, 0, 0, 0, 0, 0, 0, 248, 63]
        ++ mkRec 0x0203 [0, 0, 1, 0, 0, 0, 0, 0, 0, 0, 0, 0, 0, 0, 248, 63]) ([], [])).2.length
      = 1) := by
  have hstep : scanBIFF (mkRec 0x0203 [0, 0, 0, 0, 0, 0, 0, 0, 0, 0, 0, 0, 0, 0, 248, 63]
      ++ mkRec 0x0203 [0, 0, 1, 0, 0, 0, 0, 0, 0, 0, 0, 0, 0, 0, 248, 63]) ([], [])
      = ([], [["1.50"], ["", "1.50"]]) := by
    rw [scanBIFF_rec _ _ _ _ (by decide) (by decide)]
    conv_lhs =>
      rw [← List.append_nil (mkRec 0x0203 [0, 0, 1, 0, 0, 0, 0, 0, 0, 0, 0, 0, 0, 0, 248, 63])]
    rw [scanBIFF_rec _ _ _ _ (by decide) (by decide), scanBIFF_small [] _ (by simp)]
    decide
  refine ⟨by rw [hstep], by rw [hstep]; decide⟩

/-- C8 (amended): shared-string records append their string to the flat
ordered list; row/blank, number and label records each decode a partial
row keyed by column index — the value sits at its column offset, earlier
slots are empty — and each such record is appended as its own entry in
the output row sequence; records addressed to the same row index are not
merged. -/
theorem c8_records_append :
    (∀ (st : ScanState) (p : List Nat), parseSST p ≠ "" →
      stepBIFF st 0x00FC p = (st.1 ++ [parseSST p], st.2))
  ∧ (∀ (st : ScanState) (p : List Nat) (r : List String), parseRow p st.1 = some r → r ≠ [] →
      stepBIFF st 0x0201 p = (st.1, st.2 ++ [r]))
  ∧ (∀ (st : ScanState) (p : List Nat) (r : List String), parseNumberRecord p = some r →
      r ≠ [] → stepBIFF st 0x0203 p = (st.1, st.2 ++ [r]))
  ∧ (∀ (st : ScanState) (p : List Nat) (r : List String), parseLabelRecord p st.1 = some r →
      r ≠ [] → stepBIFF st 0x0204 p = (st.1, st.2 ++ [r]))
  ∧ (∀ (data : List Nat) (r : List String), parseNumberRecord data = some r →
      r.length = le16 (data.getD 2 0) (data.getD 3 0) + 1
    ∧ r.getD (le16 (data.getD 2 0) (data.getD 3 0)) ""
        = formatF2 (decodeF64LE ((data.drop 8).take 8))
    ∧ ∀ j, j < le16 (data.getD 2 0) (data.getD 3 0) → r.getD j "" = "")
  ∧ (∀ (data : List Nat) (sst : List String) (r : List String), parseLabelRecord data sst = some r →
      r.length = le16 (data.getD 2 0) (data.getD 3 0) + 1
    ∧ r.getD (le16 (data.getD 2 0) (data.getD 3 0)) ""
        = bytesToString (cleanLabelBytes
            ((data.drop 8).take (le16 (data.getD 6 0) (data.getD 7 0))))
    ∧ ∀ j, j < le16 (data.getD 2 0) (data.getD 3 0) → r.getD j "" = "") := by
  refine ⟨?_, ?_, ?_, ?_, ?_, ?_⟩
  · intro st p hne
    simp only [stepBIFF, if_pos rfl, if_pos hne]
    simp
  · intro st p r hpr hne
    have hl : 0 < r.length := List.length_pos.mpr hne
    simp only [stepBIFF, if_neg (by decide : ¬ ((0x0201 : Nat) = 0x00FC)), if_pos rfl, hpr,
      if_pos hl]
    simp
  · intro st p r hpr hne
    have hl : 0 < r.length := List.length_pos.mpr hne
    simp only [stepBIFF, if_neg (by decide : ¬ ((0x0203 : Nat) = 0x00FC)),
      if_neg (by decide : ¬ ((0x0203 : Nat) = 0x0201)), if_pos rfl, hpr, if_pos hl]
    simp
  · intro st p r hpr hne
    have hl : 0 < r.length := List.length_pos.mpr hne
    simp only [stepBIFF, if_neg (by decide : ¬ ((0x0204 : Nat) = 0x00FC)),
      if_neg (by decide : ¬ ((0x0204 : Nat) = 0x0201)),
      if_neg (by decide : ¬ ((0x0204 : Nat) = 0x0203)), if_pos rfl, hpr, if_pos hl]
    simp
  · intro data r h
    unfold parseNumberRecord at h
    simp only [] at h
    split at h
    · exact absurd h (by simp)
    · split at h
      · exact absurd h (by simp)
      · split at h
        · exact absurd h (by simp)
        · simp only [Option.some.injEq] at h
          subst h
          refine ⟨by simp, ?_, ?_⟩
          · have hc : le16 (data.getD 2 0) (data.getD 3 0)
                < (List.replicate (le16 (data.getD 2 0) (data.getD 3 0) + 1)
                    ("" : String)).length := by
              simp
            simp [List.getD_eq_getElem?_getD, List.getElem?_set_self hc]
          · intro j hj
            have hg : ((List.replicate (le16 (data.getD 2 0) (data.getD 3 0) + 1)
                ("" : String)).set (le16 (data.getD 2 0) (data.getD 3 0))
                (formatF2 (decodeF64LE ((data.drop 8).take 8))))[j]? = some "" := by
              rw [List.getElem?_set_ne (by omega)]
              exact List.getElem?_replicate_of_lt (by omega)
            rw [List.getD_eq_getElem?_getD, hg]
            rfl
  · intro data sst r h
    unfold parseLabelRecord at h
    simp only [] at h
    split at h
    · exact absurd h (by simp)
    · split at h
      · exact absurd h (by simp)
      · split at h
        · exact absurd h (by simp)
        · simp only [Option.some.injEq] at h
          subst h
          refine ⟨by simp, ?_, ?_⟩
          · have hc : le16 (data.getD 2 0) (data.getD 3 0)
                < (List.replicate (le16 (data.getD 2 0) (data.getD 3 0) + 1)
                    ("" : String)).length := by
              simp
            simp [List.getD_eq_getElem?_getD, List.getElem?_set_self hc]
          · intro j hj
            have hg : ((List.replicate (le16 (data.getD 2 0) (data.getD 3 0) + 1)
                ("" : String)).set (le16 (data.getD 2 0) (data.getD 3 0))
                (bytesToString (cleanLabelBytes
                  ((data.drop 8).take (le16 (data.getD 6 0) (data.getD 7 0))))))[j]?
                = some "" := by
              rw [List.getElem?_set_ne (by omega)]
              exact List.getElem?_replicate_of_lt (by omega)
            rw [List.getD_eq_getElem?_getD, hg]
            rfl

/-- C8 witness: a NUMBER record appends its own partial row, an SST record
appends its string, and a column-1 number row has width 2 as keyed by its
column index. -/
theorem c8_records_append_witness :
    stepBIFF ([], []) 0x0203 [0, 0, 0, 0, 0, 0, 0, 0, 0, 0, 0, 0, 0, 0, 248, 63]
      = ([], [["1.50"]])
  ∧ stepBIFF ([], []) 0x00FC [2, 0, 72, 105] = (["Hi"], [])
  ∧ (["", "1.50"] : List String).length = le16 1 0 + 1 := by
  refine ⟨?_, ?_, ?_⟩
  · exact c8_records_append.2.2.1 ([], []) _ ["1.50"] (by decide) (by decide)
  · have h := c8_records_append.1 ([], []) [2, 0, 72, 105] (by decide)
    rw [h]
    decide
  · exact (c8_records_append.2.2.2.2.1 [0, 0, 1, 0, 0, 0, 0, 0, 0, 0, 0, 0, 0, 0, 248, 63]
      ["", "1.50"] (by decide)).1

/-- C9: the NUMBER record path does decode a true 8-byte little-endian
IEEE-754 double (the bytes of 1.5 yield "1.50"), but a number cell of
type 0x0204 inside a row record does not — its branch is guarded by a
length test that can never hold (and would reinterpret the bytes through
an integer if it did), so the cell decodes to the empty string instead of
the IEEE value "1.50" of those bytes. -/
theorem c9_number_decode :
    parseRow [0, 0, 0, 0, 0, 0, 4, 2, 0, 0, 0, 0, 248, 63] [] = some [""]
  ∧ parseNumberRecord [0, 0, 0, 0, 0, 0, 0, 0, 0, 0, 0, 0, 0, 0, 248, 63] = some ["1.50"]
  ∧ decodeF64LE [0, 0, 0, 0, 0, 0, 248, 63] = .fin (mkRat 3 2)
  ∧ formatF2 (.fin (mkRat 3 2)) = "1.50" :=
  ⟨by decide, by decide, by decide, by decide⟩

/-- C10: in both legacy decode paths, the first decoded record row is
consumed as the column names and never emitted as a data row: a scan
yielding exactly one row gives a frame with that row as columns and no
data rows (first two conjuncts), and in general the data-row count is one
less than the decoded row count while the columns come from the first
decoded row (last two conjuncts). -/
theorem c10_header_consumed :
    (∀ (data : List Nat) (s : List String) (r : List String),
      scanXLS data ([], []) = (s, [r]) → 8 ≤ data.length →
      (sigAt data 0 = 0x0809 ∨ sigAt data 0 = 0x0805) →
      parseXLS data = .ok ⟨r, [], []⟩)
  ∧ (∀ (data : List Nat) (s : List String) (r : List String),
      scanBIFF data ([], []) = (s, [r]) → parseBIFFData data = .ok ⟨r, [], []⟩)
  ∧ (∀ rows : List (List String), (buildDF rows).data.length = rows.length - 1)
  ∧ (∀ rows : List (List String), (buildDF rows).columns = makeColumns rows) := by
  refine ⟨?_, ?_, ?_, ?_⟩
  · intro data s r hscan h8 hsig
    have hns : ¬ (data.length < 8) := by omega
    have hnd : ¬ (sigAt data 0 = 0xD0CF ∨ sigAt data 0 = 0xCFD0) := by
      rcases hsig with h | h <;> simp [h]
    simp only [parseXLS, if_neg hns, if_neg hnd, if_pos hsig, rawOutcome, hscan]
    simp [buildDF_single]
  · intro data s r hscan
    simp only [parseBIFFData, hscan]
    simp [buildDF_single]
  · intro rows
    rw [(buildDF_spec rows).2]
    simp
  · intro rows
    exact (buildDF_spec rows).1

/-- C10 witness: a raw stream whose only decodable row is ["ABC"] gives a
frame with columns ["ABC"] and zero data rows, and a BIFF stream whose
only row is ["1.50"] likewise. -/
theorem c10_header_consumed_witness :
    parseXLS ([9, 8, 0, 0] ++ mkRec 0x0201 [0, 0, 0, 0, 0, 0, 255, 255, 65, 66, 67, 0, 0, 0])
      = .ok ⟨["ABC"], [], []⟩
  ∧ parseBIFFData (mkRec 0x0203 [0, 0, 0, 0, 0, 0, 0, 0, 0, 0, 0, 0, 0, 0, 248, 63])
      = .ok ⟨["1.50"], [], []⟩ := by
  constructor
  · have hsplit : ([9, 8, 0, 0] : List Nat)
        ++ mkRec 0x0201 [0, 0, 0, 0, 0, 0, 255, 255, 65, 66, 67, 0, 0, 0]
        = mkRec 0x0809 []
          ++ (mkRec 0x0201 [0, 0, 0, 0, 0, 0, 255, 255, 65, 66, 67, 0, 0, 0] ++ []) := by
      simp [mkRec, mkHeader]
    have hscan : scanXLS ([9, 8, 0, 0]
        ++ mkRec 0x0201 [0, 0, 0, 0, 0, 0, 255, 255, 65, 66, 67, 0, 0, 0]) ([], [])
        = ([], [["ABC"]]) := by
      rw [hsplit,
        scanXLS_rec 0x0809 [] _ _ (by decide) (by decide) (Or.inr (by simp [mkRec, mkHeader])),
        scanXLS_rec 0x0201 _ [] _ (by decide) (by decide) (Or.inl (by decide)),
        scanXLS_small [] _ (by simp)]
      decide
    exact c10_header_consumed.1 _ [] ["ABC"] hscan (by decide) (Or.inl (by decide))
  · have hscan : scanBIFF (mkRec 0x0203 [0, 0, 0, 0, 0, 0, 0, 0, 0, 0, 0, 0, 0, 0, 248, 63])
        ([], []) = ([], [["1.50"]]) := by
      conv_lhs =>
        rw [← List.append_nil
          (mkRec 0x0203 [0, 0, 0, 0, 0, 0, 0, 0, 0, 0, 0, 0, 0, 0, 248, 63])]
      rw [scanBIFF_rec _ _ _ _ (by decide) (by decide), scanBIFF_small [] _ (by simp)]
      decide
    exact c10_header_consumed.2.1 _ [] ["1.50"] hscan

end GoPandas
